import Mathlib

/-!
Shallow embedding of the battery-admin dashboard (React + Firebase/Supabase)
data-flow logic, and proofs about it.

The repository is a set of page components; every backend interaction is a
vendor-SDK call.  We embed each relevant handler as a pure function from the
component state and the (already-fetched or to-be-fetched) backend data to the
new component state, passing the vendor responses in explicitly.  Vendor calls
that can fail or miss are `Option`/`Except` valued parameters.

JavaScript semantics used by the source and mirrored here:
  - `undefined` and the empty string are falsy (`jsTruthy`, `jsOr`);
  - `Array.from(new Set(xs))` keeps the first occurrence of each element
    (`uniqueKeep`);
  - `xs.slice(a, a + n)` is drop-then-take;
  - `Date.now().toString().substring(9)` is decimal digits from index 9 on.

Numbers that are JS floats in the source (coordinates, distances) are modelled
as rationals; the vendor functions `geohashQueryBounds` and `distanceBetween`
(from geofire-common, not part of this repository) are abstract parameters:
a bounds list and a distance function.
-/

namespace BatteryAdmin

/-- JS truthiness of an optional string field: `undefined` and `""` are falsy. -/
def jsTruthy : Option String → Bool
  | none => false
  | some s => s != ""

/-- JS `v || fallback` on an optional string: falls back on `undefined` and `""`. -/
def jsOr (v : Option String) (fallback : String) : String :=
  match v with
  | none => fallback
  | some s => if s = "" then fallback else s

/-- Lexicographic order on char lists, by code point; the order Firestore's
`orderBy` uses on the ASCII geohash strings. -/
def charsLe : List Char → List Char → Bool
  | [], _ => true
  | _ :: _, [] => false
  | a :: as, b :: bs =>
    if a.toNat < b.toNat then true
    else if b.toNat < a.toNat then false
    else charsLe as bs

/-- String comparison used for the geohash range conditions. -/
def strLe (s t : String) : Bool := charsLe s.data t.data

/-- Does the char list start with the given needle? (helper for JS `includes`) -/
def charsStartWith : List Char → List Char → Bool
  | [], _ => true
  | _ :: _, [] => false
  | a :: as, b :: bs => a = b && charsStartWith as bs

/-- JS `hay.includes(needle)` on char lists. -/
def charsInclude (needle : List Char) : List Char → Bool
  | [] => charsStartWith needle []
  | c :: cs => charsStartWith needle (c :: cs) || charsInclude needle cs

/-- JS `hay.includes(needle)` on strings. -/
def strIncludes (hay needle : String) : Bool := charsInclude needle.data hay.data

/-- ASCII lower-casing of one character (JS `toLowerCase` on the data here). -/
def lowerChar (c : Char) : Char :=
  if 65 ≤ c.toNat ∧ c.toNat ≤ 90 then Char.ofNat (c.toNat + 32) else c

/-- JS `s.toLowerCase()` for the ASCII strings handled by the search filters. -/
def jsToLower (s : String) : String := String.mk (s.data.map lowerChar)

/-- `Array.from(new Set(xs))`: deduplicate keeping the first occurrence of each
element, in encounter order. -/
def uniqueKeep : List String → List String
  | [] => []
  | x :: xs => x :: uniqueKeep (xs.filter (fun y => y ≠ x))
termination_by l => l.length
decreasing_by
  simp only [List.length_cons]
  exact Nat.lt_succ_of_le (List.length_filter_le _ _)

theorem mem_uniqueKeep (a : String) : ∀ l : List String, a ∈ uniqueKeep l ↔ a ∈ l
  | [] => by simp [uniqueKeep]
  | x :: xs => by
    rw [uniqueKeep]
    by_cases hax : a = x
    · subst hax; simp
    · simp only [List.mem_cons, hax, false_or]
      rw [mem_uniqueKeep a (xs.filter (fun y => y ≠ x))]
      simp [hax]
termination_by l => l.length
decreasing_by
  simp only [List.length_cons]
  exact Nat.lt_succ_of_le (List.length_filter_le _ _)

theorem nodup_uniqueKeep : ∀ l : List String, (uniqueKeep l).Nodup
  | [] => by simp [uniqueKeep]
  | x :: xs => by
    rw [uniqueKeep]
    refine List.nodup_cons.2 ⟨?_, nodup_uniqueKeep (xs.filter (fun y => y ≠ x))⟩
    rw [mem_uniqueKeep]
    simp
termination_by l => l.length
decreasing_by
  simp only [List.length_cons]
  exact Nat.lt_succ_of_le (List.length_filter_le _ _)

/-- Chunking loop `for (let i = 0; i < xs.length; i += 10) chunk = xs.slice(i, i + 10)`. -/
def chunks10 : List String → List (List String)
  | [] => []
  | x :: xs => ((x :: xs).take 10) :: chunks10 ((x :: xs).drop 10)
termination_by l => l.length
decreasing_by
  simp only [List.length_cons, List.length_drop]
  omega

theorem chunks10_flatten : ∀ l : List String, (chunks10 l).flatten = l
  | [] => by simp [chunks10]
  | x :: xs => by
    rw [chunks10, List.flatten_cons, chunks10_flatten ((x :: xs).drop 10),
      List.take_append_drop]
termination_by l => l.length
decreasing_by
  simp only [List.length_cons, List.length_drop]
  omega

theorem chunks10_length_le : ∀ l : List String, ∀ c ∈ chunks10 l, c.length ≤ 10
  | [] => by simp [chunks10]
  | x :: xs => by
    rw [chunks10]
    intro c hc
    rcases List.mem_cons.1 hc with h | h
    · subst h; exact le_trans (List.length_take_le _ _) (le_refl _)
    · exact chunks10_length_le ((x :: xs).drop 10) c h
termination_by l => l.length
decreasing_by
  simp only [List.length_cons, List.length_drop]
  omega

theorem chunks10_countP_eq_one : ∀ l : List String, l.Nodup →
    ∀ a ∈ l, (chunks10 l).countP (fun c => decide (a ∈ c)) = 1
  | [] => by simp
  | x :: xs => by
    intro hnd a ha
    rw [chunks10, List.countP_cons]
    have hsplit := List.take_append_drop 10 (x :: xs)
    have hnd2 : ((x :: xs).take 10 ++ (x :: xs).drop 10).Nodup := by
      rw [hsplit]; exact hnd
    have hdisj : List.Disjoint ((x :: xs).take 10) ((x :: xs).drop 10) :=
      (List.nodup_append.1 hnd2).2.2
    by_cases hmem : a ∈ (x :: xs).take 10
    · have hnotdrop : a ∉ (x :: xs).drop 10 := fun h => hdisj hmem h
      have h0 : (chunks10 ((x :: xs).drop 10)).countP (fun c => decide (a ∈ c)) = 0 := by
        rw [List.countP_eq_zero]
        intro c hc hac
        refine hnotdrop ?_
        rw [← chunks10_flatten ((x :: xs).drop 10)]
        exact List.mem_flatten.2 ⟨c, hc, of_decide_eq_true hac⟩
      rw [h0, if_pos (decide_eq_true hmem)]
    · have hdrop : a ∈ (x :: xs).drop 10 := by
        rcases List.mem_append.1 (hsplit ▸ ha) with h | h
        · exact absurd h hmem
        · exact h
      have hnddrop : ((x :: xs).drop 10).Nodup := (List.nodup_append.1 hnd2).2.1
      rw [chunks10_countP_eq_one ((x :: xs).drop 10) hnddrop a hdrop, if_neg]
      intro hcontra
      exact hmem (of_decide_eq_true hcontra)
termination_by l => l.length
decreasing_by
  simp only [List.length_cons, List.length_drop]
  omega

/-! ## Nearby-location geosearch: `getData` in CompanyList.tsx

The pipeline, stage by stage, with vendor inputs passed explicitly:
`bounds` is the result of `geohashQueryBounds(centered, radiusInM)`,
`docs` is the `"locations"` collection group, `dist` is geofire-common's
`distanceBetween` (kilometres), `companyFetch` is `getDoc` on
`companyProfiles` (`none` for a missing document). -/

/-- A document of the `"locations"` collection group.  `parentCompanyId` is
`docSnap.ref.parent.parent?.id` (`none` when the parent is missing). -/
structure LocationDoc where
  id : String
  parentCompanyId : Option String
  geoHash : String
  lat : ℚ
  lng : ℚ
  address : String
  deriving DecidableEq, Repr

/-- `const radiusInM = 50 * 1000; // 50km radius` -/
def radiusInM : ℚ := 50 * 1000

/-- Firestore semantics of one per-bound query:
`query(collectionGroup(db, "locations"), orderBy("geoHash"), startAt(b[0]), endAt(b[1]))`
returns the documents whose `geoHash` lies in the closed range `[b.1, b.2]`. -/
def rangeQuery (docs : List LocationDoc) (b : String × String) : List LocationDoc :=
  docs.filter (fun d => strLe b.1 d.geoHash && strLe d.geoHash b.2)

/-- The `locationSnapshots` array: one `getDocs` result per geohash bound. -/
def locationSnapshots (docs : List LocationDoc) (bounds : List (String × String)) :
    List (List LocationDoc) :=
  bounds.map (fun b => rangeQuery docs b)

/-- One entry of `matchedPairs`: `{ companyId, location }`. -/
structure MatchedPair where
  companyId : String
  location : LocationDoc
  deriving DecidableEq, Repr

/-- The nested loop over `locationSnapshots`: keep a document iff
`distanceBetween([lat, lng], centered) * 1000 <= radiusInM`, recording
`docSnap.ref.parent.parent?.id || ''` as the company id. -/
def matchedPairs (dist : ℚ × ℚ → ℚ × ℚ → ℚ) (centered : ℚ × ℚ)
    (snaps : List (List LocationDoc)) : List MatchedPair :=
  snaps.flatMap (fun snap =>
    snap.filterMap (fun d =>
      if dist (d.lat, d.lng) centered * 1000 ≤ radiusInM then
        some { companyId := d.parentCompanyId.getD "", location := d }
      else none))

/-- `Array.from(new Set(matchedPairs.map(p => p.companyId)))`. -/
def uniqueCompanyIds (pairs : List MatchedPair) : List String :=
  uniqueKeep (pairs.map (fun p => p.companyId))

/-- A `companyProfiles` document (the fields getData uses). -/
structure CompanyProfileDoc where
  companyName : Option String
  deriving DecidableEq, Repr

/-- The keys of `companyDataMap`: of the fetched `companyDocs`, those for which
`docSnap.exists()`. -/
def companyDataKeys (companyFetch : String → Option CompanyProfileDoc)
    (pairs : List MatchedPair) : List String :=
  (uniqueCompanyIds pairs).filter (fun cid => (companyFetch cid).isSome)

/-- `results = matchedPairs.filter(p => companyDataMap.has(p.companyId))`. -/
def geoResults (companyFetch : String → Option CompanyProfileDoc)
    (pairs : List MatchedPair) : List MatchedPair :=
  pairs.filter (fun p => p.companyId ∈ companyDataKeys companyFetch pairs)

/-- The chunks of unique company ids used for the `"in"` queries over
`mapData.companyProfileId` (`chunkSize = 10`). -/
def jobQueryChunks (pairs : List MatchedPair) : List (List String) :=
  chunks10 (uniqueCompanyIds pairs)

/-- One row of the final `displayLocs` list. -/
structure DisplayLocation where
  id : String
  locationId : String
  name : String
  address : String
  companyId : String
  companyName : String
  lat : ℚ
  lng : ℚ
  deriving DecidableEq, Repr

/-- The final `displayLocs` map over `results`:
`id` is the template literal `` `${company.id}-${company.location.id}` ``,
`name`/`companyName` are `company.companyName || 'Unnamed Company'`. -/
def displayLocs (companyFetch : String → Option CompanyProfileDoc)
    (pairs : List MatchedPair) : List DisplayLocation :=
  (geoResults companyFetch pairs).map (fun p =>
    let nm := jsOr ((companyFetch p.companyId).bind (fun c => c.companyName))
      "Unnamed Company"
    { id := p.companyId ++ "-" ++ p.location.id
      locationId := p.location.id
      name := nm
      address := p.location.address
      companyId := p.companyId
      companyName := nm
      lat := p.location.lat
      lng := p.location.lng })

/-! ## CreateLocation (location create form + submit payload) -/

/-- Initial form state of CreateLocation:
`locationId: loc${Date.now().toString().substring(9)}` — the client clock in
milliseconds, printed in decimal, digits from index 9 on, behind `"loc"`. -/
def createLocationFormId (now : Nat) : String := "loc" ++ (toString now).drop 9

/-- The `locationData` object CreateLocation passes to `addDoc`. -/
structure LocationPayload where
  address : String
  lat : ℚ
  lng : ℚ
  geoHash : String
  locationId : String
  createdAt : String
  updatedAt : String
  deriving DecidableEq, Repr

/-- `handleSubmit` body of CreateLocation: builds `locationData` with the
geohash from `geohashForLocation` (vendor, passed in), both timestamps from
`new Date().toISOString()` (passed in as `nowIso`), and the `locationId`
computed from the clock value `formNow` at form initialisation. -/
def locationSubmitPayload (formNow : Nat) (address : String) (lat lng : ℚ)
    (geoHash nowIso : String) : LocationPayload :=
  { address := address
    lat := lat
    lng := lng
    geoHash := geoHash
    locationId := createLocationFormId formNow
    createdAt := nowIso
    updatedAt := nowIso }

/-! ## UserList (Supabase users page) -/

/-- A row of the Supabase `users` table as selected by UserList. -/
structure SupaUser where
  id : String
  created_at : String
  email : String
  deriving DecidableEq, Repr

/-- The local state of UserList touched by `fetchUsers`. -/
structure UserListState where
  users : List SupaUser
  error : Option String
  loading : Bool
  deriving DecidableEq, Repr

/-- The Supabase query `fetchUsers` builds for a given search string:
`.from('users').select('id, created_at, email')` plus
`.ilike('email', %search%)` when `search` is truthy. -/
structure SupabaseUsersQuery where
  table : String
  columns : String
  emailIlike : Option String
  deriving DecidableEq, Repr

/-- Query construction in `fetchUsers` (one query per effect run). -/
def buildUsersQuery (search : String) : SupabaseUsersQuery :=
  { table := "users"
    columns := "id, created_at, email"
    emailIlike := if search = "" then none else some ("%" ++ search ++ "%") }

/-- One run of `fetchUsers` applied to the awaited Supabase result:
`setLoading(true); setError(null);` then `if (error) setError(error.message);
if (data) setUsers(data); setLoading(false);`.  On error Supabase returns no
data, so `users` is not touched. -/
def fetchUsersStep (s : UserListState) (result : Except String (List SupaUser)) :
    UserListState :=
  match result with
  | .error e => { s with error := some e, loading := false }
  | .ok data => { s with error := none, users := data, loading := false }

/-- `paginatedUsers = users.slice(page * rowsPerPage, page * rowsPerPage + rowsPerPage)`. -/
def paginatedUsers (users : List SupaUser) (page rowsPerPage : Nat) : List SupaUser :=
  (users.drop (page * rowsPerPage)).take rowsPerPage

/-- Interleaving semantics of un-cancelled overlapping fetches: each response
arrival runs `setUsers(data)`, overwriting the state; the displayed list after
all arrivals is the last arrival. -/
def finalUsers (initial : List SupaUser) (arrivals : List (List SupaUser)) :
    List SupaUser :=
  arrivals.foldl (fun _ data => data) initial

/-! ## Admin user list (Firestore users, second file of part_000) -/

/-- A Firestore `users` document row of the admin user list. -/
structure AdminUser where
  id : String
  name : Option String
  email : Option String
  companyProfileId : Option String
  deriving DecidableEq, Repr

/-- `handleDeleteConfirm` of the admin user list, applied to the `deleteDoc`
outcome: on success `setUsers(users.filter(user => user.id !== selectedUser.id))`,
on failure `console.error('Error deleting user:', error)` and no state change. -/
def handleDeleteConfirmStep (users : List AdminUser) (selectedId : String)
    (result : Except String Unit) : List AdminUser × Option String :=
  match result with
  | .ok _ => (users.filter (fun u => u.id ≠ selectedId), none)
  | .error _ => (users, some "Error deleting user:")

/-! ## CompanyList (companies table page) -/

/-- A `companyProfiles` document as listed by CompanyList (searchable fields). -/
structure Company where
  id : String
  companyName : Option String
  address : Option String
  companyAbout : Option String
  contactEmail : Option String
  deriving DecidableEq, Repr

/-- One disjunct of the search filter:
`field?.toLowerCase().includes(searchQuery.toLowerCase())`; optional chaining
makes a missing field falsy. -/
def optFieldMatches (field : Option String) (q : String) : Bool :=
  match field with
  | none => false
  | some s => strIncludes (jsToLower s) (jsToLower q)

/-- The search predicate of `filteredCompanies`. -/
def companyMatches (q : String) (c : Company) : Bool :=
  optFieldMatches c.companyName q || optFieldMatches c.address q ||
    optFieldMatches c.contactEmail q || optFieldMatches c.companyAbout q

/-- `filteredCompanies = companies.filter(...)` — local, client-side search. -/
def filteredCompanies (companies : List Company) (searchQuery : String) :
    List Company :=
  companies.filter (fun c => companyMatches searchQuery c)

/-- `handleDeleteCompany`, applied to the `deleteDoc` outcome: on success
`setCompanies(companies.filter(company => company.id !== id))`, on failure
`console.error('Error deleting company:', error)` and no state change. -/
def handleDeleteCompanyStep (companies : List Company) (id : String)
    (result : Except String Unit) : List Company × Option String :=
  match result with
  | .ok _ => (companies.filter (fun c => c.id ≠ id), none)
  | .error _ => (companies, some "Error deleting company:")

/-! ## LocationList (locations table page) -/

/-- A row of the flattened locations list. -/
structure LocationRow where
  id : String
  companyProfileId : String
  address : String
  companyName : String
  locationId : Option String
  deriving DecidableEq, Repr

/-- `deleteLocation` past the confirm guard, applied to the `deleteDoc`
outcome: on success `setLocations(locations.filter(loc => loc.id !== location.id))`,
on failure a console log plus
`alert('Failed to delete location. Please try again.')` and no state change. -/
def deleteLocationStep (locations : List LocationRow) (target : LocationRow)
    (result : Except String Unit) : List LocationRow × Option String :=
  match result with
  | .ok _ => (locations.filter (fun loc => loc.id ≠ target.id), none)
  | .error _ => (locations, some "Failed to delete location. Please try again.")

/-! ## JobsList (`fetchJobs` client-side joins)

Backend accessors passed in: `companyFetch` is `getDoc` on `companyProfiles`
(`none` when the document is missing or the fetch threw — both paths skip the
entry), `locationFetch c l` is `getDoc` on `companyProfiles/c/locations/l`,
`userFetch` is `getDoc` on `users`. -/

/-- A `mapData` document (the foreign-key fields `fetchJobs` resolves). -/
structure JobDoc where
  id : String
  companyProfileId : Option String
  locationId : Option String
  userId : Option String
  deriving DecidableEq, Repr

/-- The fields of a company document used by the join. -/
structure JobCompanyDoc where
  companyName : Option String
  deriving DecidableEq, Repr

/-- The fields of a location document used by the join. -/
structure JobLocationDoc where
  address : Option String
  deriving DecidableEq, Repr

/-- The fields of a user document used by the join. -/
structure JobUserDoc where
  name : Option String
  deriving DecidableEq, Repr

/-- `Array.from(new Set(jobsList.filter(job => job.companyProfileId).map(job => job.companyProfileId)))`. -/
def companyIdsOf (jobs : List JobDoc) : List String :=
  uniqueKeep ((jobs.filter (fun j => jsTruthy j.companyProfileId)).map
    (fun j => j.companyProfileId.getD ""))

/-- Unique truthy `locationId`s, as for `companyIdsOf`. -/
def locationIdsOf (jobs : List JobDoc) : List String :=
  uniqueKeep ((jobs.filter (fun j => jsTruthy j.locationId)).map
    (fun j => j.locationId.getD ""))

/-- Unique truthy `userId`s, as for `companyIdsOf`. -/
def userIdsOf (jobs : List JobDoc) : List String :=
  uniqueKeep ((jobs.filter (fun j => jsTruthy j.userId)).map
    (fun j => j.userId.getD ""))

/-- The `companyData` dictionary loop: skip falsy ids
(`if (!companyId) continue`), fetch, and on `exists()` record
`companyName || 'Unnamed Company'` under the id. -/
def companyDataList (companyFetch : String → Option JobCompanyDoc)
    (companyIds : List String) : List (String × String) :=
  companyIds.filterMap (fun cid =>
    if cid = "" then none
    else (companyFetch cid).map (fun cdoc => (cid, jsOr cdoc.companyName "Unnamed Company")))

/-- The inner loop of the `locationData` dictionary: probe each company's
`locations` subcollection in order, and at the first company holding the
document take `address || 'Unknown Location'` and `break`. -/
def probeCompanies (locationFetch : String → String → Option JobLocationDoc)
    (lid : String) : List String → Option String
  | [] => none
  | c :: cs =>
    match locationFetch c lid with
    | some ldoc => some (jsOr ldoc.address "Unknown Location")
    | none => probeCompanies locationFetch lid cs

/-- The `locationData` dictionary loop (skip falsy ids, then probe). -/
def locationDataList (locationFetch : String → String → Option JobLocationDoc)
    (companyIds locationIds : List String) : List (String × String) :=
  locationIds.filterMap (fun lid =>
    if lid = "" then none
    else (probeCompanies locationFetch lid companyIds).map (fun addr => (lid, addr)))

/-- The `userData` dictionary loop. -/
def userDataList (userFetch : String → Option JobUserDoc)
    (userIds : List String) : List (String × String) :=
  userIds.filterMap (fun uid =>
    if uid = "" then none
    else (userFetch uid).map (fun udoc => (uid, jsOr udoc.name "Unknown User")))

/-- A job with the joined display fields of `jobsWithDetails`. -/
structure EnrichedJob where
  job : JobDoc
  companyName : Option String
  locationName : Option String
  userName : Option String
  deriving DecidableEq, Repr

/-- One entry of `jobsWithDetails`:
`job.companyProfileId && companyData[job.companyProfileId] ? ...name : undefined`
and likewise for the location address and user name. -/
def enrichJob (cd ld ud : List (String × String)) (j : JobDoc) : EnrichedJob :=
  { job := j
    companyName :=
      if jsTruthy j.companyProfileId then List.lookup (j.companyProfileId.getD "") cd
      else none
    locationName :=
      if jsTruthy j.locationId then List.lookup (j.locationId.getD "") ld
      else none
    userName :=
      if jsTruthy j.userId then List.lookup (j.userId.getD "") ud
      else none }

/-- The whole `fetchJobs` join: build the three dictionaries from the unique
ids of the fetched jobs, then map `enrichJob` over the jobs. -/
def fetchJobsEnrich (companyFetch : String → Option JobCompanyDoc)
    (locationFetch : String → String → Option JobLocationDoc)
    (userFetch : String → Option JobUserDoc) (jobs : List JobDoc) :
    List EnrichedJob :=
  let cIds := companyIdsOf jobs
  let cd := companyDataList companyFetch cIds
  let ld := locationDataList locationFetch cIds (locationIdsOf jobs)
  let ud := userDataList userFetch (userIdsOf jobs)
  jobs.map (enrichJob cd ld ud)

/-- JobsList `handleDeleteConfirm`, applied to the `deleteDoc` outcome. -/
def deleteJobStep (jobs : List EnrichedJob) (selectedId : String)
    (result : Except String Unit) : List EnrichedJob × Option String :=
  match result with
  | .ok _ => (jobs.filter (fun e => e.job.id ≠ selectedId), none)
  | .error _ => (jobs, some "Error deleting job:")

/-- The claim's description of the displayed company name, written from the
claim sentence: the `companyName` field of the company document whose id
equals the job's `companyProfileId` when that per-id fetch found a document
(falling back to `'Unnamed Company'` for a missing name), nothing otherwise. -/
def claimedCompanyName (companyFetch : String → Option JobCompanyDoc)
    (j : JobDoc) : Option String :=
  match j.companyProfileId with
  | none => none
  | some cid =>
    if cid = "" then none
    else (companyFetch cid).map (fun cdoc => jsOr cdoc.companyName "Unnamed Company")

/-- The claim's description of the displayed location name, written from the
claim sentence: probe each matched company in order and take the address from
the first company in which a document with the job's `locationId` exists. -/
def claimedLocationName (locationFetch : String → String → Option JobLocationDoc)
    (companyIds : List String) (j : JobDoc) : Option String :=
  match j.locationId with
  | none => none
  | some lid =>
    if lid = "" then none
    else
      match companyIds.find? (fun c => (locationFetch c lid).isSome) with
      | none => none
      | some c => (locationFetch c lid).map (fun ldoc => jsOr ldoc.address "Unknown Location")

/-! ## firebase.ts / CreateCompany: `generateReferralCode` -/

/-- `const chars = 'ABCDEFGHIJKLMNOPQRSTUVWXYZ0123456789';` -/
def referralChars : String := "ABCDEFGHIJKLMNOPQRSTUVWXYZ0123456789"

/-- JS `s.charAt(i)`: the one-character string at index `i`, or `""` out of
range. -/
def charAt (s : String) (i : ℤ) : String :=
  if i < 0 then ""
  else
    match s.data[i.toNat]? with
    | some c => String.singleton c
    | none => ""

/-- The loop `for (i = 0; i < 8; i++) result += chars.charAt(Math.floor(Math.random() * chars.length))`,
with the stream of `Math.random()` draws passed in as `random`. -/
def referralBody (random : Nat → ℚ) : Nat → String
  | 0 => ""
  | n + 1 =>
    referralBody random n ++ charAt referralChars ⌊random n * (referralChars.length : ℚ)⌋

/-- `generateReferralCode` (identical in `lib/firebase.ts` and CreateCompany):
eight random draws from `referralChars`. -/
def generateReferralCode (random : Nat → ℚ) : String := referralBody random 8

/-! ## Sample data for concrete evaluations -/

/-- A sample location document. -/
def demoDoc : LocationDoc :=
  { id := "l1", parentCompanyId := some "c1", geoHash := "9q8yy"
    lat := 0, lng := 0, address := "HQ" }

/-- A sample distance function placing everything at distance zero. -/
def demoDist : ℚ × ℚ → ℚ × ℚ → ℚ := fun _ _ => 0

/-- A sample company fetcher knowing only company `"c1"`. -/
def demoCompanyFetch : String → Option CompanyProfileDoc :=
  fun cid => if cid = "c1" then some { companyName := some "Acme" } else none

/-! ## Claims -/

/-- C1: in `getData`, a location document returned by the geohash range
queries is in the matched result set iff its `distanceBetween` distance to the
map center, converted to meters, is at most `radiusInM = 50 * 1000`; documents
beyond the radius are discarded even though the bounds returned them. -/
theorem geo_distance_filter_iff (dist : ℚ × ℚ → ℚ × ℚ → ℚ) (centered : ℚ × ℚ)
    (snaps : List (List LocationDoc)) (d : LocationDoc)
    (hd : d ∈ snaps.flatten) :
    (∃ p ∈ matchedPairs dist centered snaps, p.location = d) ↔
      dist (d.lat, d.lng) centered * 1000 ≤ radiusInM := by
  constructor
  · rintro ⟨p, hp, rfl⟩
    simp only [matchedPairs, List.mem_flatMap, List.mem_filterMap] at hp
    obtain ⟨snap, _, d', _, hd'⟩ := hp
    by_cases hcond : dist (d'.lat, d'.lng) centered * 1000 ≤ radiusInM
    · rw [if_pos hcond] at hd'
      obtain rfl := Option.some.inj hd'
      simpa using hcond
    · rw [if_neg hcond] at hd'
      exact absurd hd' (by simp)
  · intro hcond
    obtain ⟨snap, hsnap, hdsnap⟩ := List.mem_flatten.1 hd
    refine ⟨⟨d.parentCompanyId.getD "", d⟩, ?_, rfl⟩
    simp only [matchedPairs, List.mem_flatMap, List.mem_filterMap]
    exact ⟨snap, hsnap, d, hdsnap, by rw [if_pos hcond]⟩

/-- Concrete instance of the C1 theorem: a document at distance zero from the
center is matched. -/
theorem geo_distance_filter_iff_witness :
    demoDoc ∈ ([[demoDoc]] : List (List LocationDoc)).flatten ∧
      ((∃ p ∈ matchedPairs demoDist (0, 0) [[demoDoc]], p.location = demoDoc) ↔
        demoDist (demoDoc.lat, demoDoc.lng) (0, 0) * 1000 ≤ radiusInM) :=
  ⟨by simp, geo_distance_filter_iff demoDist (0, 0) [[demoDoc]] demoDoc (by simp)⟩

/-- C2: `getData` issues one range query per geohash bound — the snapshot list
has exactly one entry per bound, the entry for a bound being the documents
whose `geoHash` lies in that bound's closed range — and the candidate set
examined afterwards is the union of the per-bound results. -/
theorem geo_bounds_queries_spec (docs : List LocationDoc)
    (bounds : List (String × String)) :
    (locationSnapshots docs bounds).length = bounds.length ∧
      (∀ i : Fin bounds.length,
        (locationSnapshots docs bounds).get
            ⟨i.1, by simp [locationSnapshots, i.2]⟩ =
          rangeQuery docs (bounds.get i)) ∧
      ∀ d : LocationDoc,
        d ∈ (locationSnapshots docs bounds).flatten ↔
          d ∈ docs ∧ ∃ b ∈ bounds, strLe b.1 d.geoHash ∧ strLe d.geoHash b.2 := by
  refine ⟨by simp [locationSnapshots], ?_, ?_⟩
  · intro i
    simp [locationSnapshots]
  · intro d
    simp only [locationSnapshots, List.mem_flatten, List.mem_map]
    constructor
    · rintro ⟨snap, ⟨b, hb, rfl⟩, hdmem⟩
      obtain ⟨hd, hcond⟩ := List.mem_filter.1 hdmem
      rcases Bool.and_eq_true_iff.1 hcond with ⟨h1, h2⟩
      exact ⟨hd, b, hb, h1, h2⟩
    · rintro ⟨hdocs, b, hb, h1, h2⟩
      exact ⟨rangeQuery docs b, ⟨b, hb, rfl⟩,
        List.mem_filter.2 ⟨hdocs, by rw [h1, h2]; rfl⟩⟩

/-- C3: after the distance filter, `getData` deduplicates the parent company
ids (each unique id is fetched exactly once); a matched location survives into
`results` iff its parent company document exists; and the `"in"`-query chunks
are consecutive chunks of at most 10 unique ids whose concatenation is the
unique-id list, each unique id occurring in exactly one chunk. -/
theorem geo_company_join_spec (dist : ℚ × ℚ → ℚ × ℚ → ℚ) (centered : ℚ × ℚ)
    (snaps : List (List LocationDoc))
    (companyFetch : String → Option CompanyProfileDoc) :
    (∀ cid ∈ uniqueCompanyIds (matchedPairs dist centered snaps),
        (uniqueCompanyIds (matchedPairs dist centered snaps)).count cid = 1) ∧
      (∀ p, p ∈ geoResults companyFetch (matchedPairs dist centered snaps) ↔
        p ∈ matchedPairs dist centered snaps ∧ (companyFetch p.companyId).isSome) ∧
      ((jobQueryChunks (matchedPairs dist centered snaps)).flatten =
        uniqueCompanyIds (matchedPairs dist centered snaps)) ∧
      (∀ c ∈ jobQueryChunks (matchedPairs dist centered snaps), c.length ≤ 10) ∧
      (∀ cid ∈ uniqueCompanyIds (matchedPairs dist centered snaps),
        (jobQueryChunks (matchedPairs dist centered snaps)).countP
          (fun c => decide (cid ∈ c)) = 1) := by
  refine ⟨?_, ?_, chunks10_flatten _, chunks10_length_le _, ?_⟩
  · intro cid hcid
    exact List.count_eq_one_of_mem (nodup_uniqueKeep _) hcid
  · intro p
    unfold geoResults
    rw [List.mem_filter]
    constructor
    · rintro ⟨hp, hkey⟩
      have hkey2 := of_decide_eq_true hkey
      obtain ⟨-, hsome⟩ := List.mem_filter.1 hkey2
      exact ⟨hp, hsome⟩
    · rintro ⟨hp, hsome⟩
      refine ⟨hp, decide_eq_true ?_⟩
      refine List.mem_filter.2 ⟨?_, hsome⟩
      rw [uniqueCompanyIds, mem_uniqueKeep]
      exact List.mem_map.2 ⟨p, hp, rfl⟩
  · intro cid hcid
    exact chunks10_countP_eq_one _ (nodup_uniqueKeep _) cid hcid

/-- Concrete instance of the C3 theorem on a one-document database. -/
theorem geo_company_join_spec_witness :
    "c1" ∈ uniqueCompanyIds (matchedPairs demoDist (0, 0) [[demoDoc]]) ∧
      (uniqueCompanyIds (matchedPairs demoDist (0, 0) [[demoDoc]])).count "c1" = 1 ∧
      (⟨"c1", demoDoc⟩ ∈ geoResults demoCompanyFetch (matchedPairs demoDist (0, 0) [[demoDoc]]) ↔
        (⟨"c1", demoDoc⟩ : MatchedPair) ∈ matchedPairs demoDist (0, 0) [[demoDoc]] ∧
          (demoCompanyFetch "c1").isSome) := by
  have hmem : "c1" ∈ uniqueCompanyIds (matchedPairs demoDist (0, 0) [[demoDoc]]) := by
    rw [uniqueCompanyIds, mem_uniqueKeep]
    norm_num [matchedPairs, demoDist, demoDoc, radiusInM, List.filterMap_cons]
  exact ⟨hmem,
    (geo_company_join_spec demoDist (0, 0) [[demoDoc]] demoCompanyFetch).1 "c1" hmem,
    (geo_company_join_spec demoDist (0, 0) [[demoDoc]] demoCompanyFetch).2.1 ⟨"c1", demoDoc⟩⟩

/-- C4 counterexample: CreateLocation computes the stored `locationId`
identifier locally, as a pure function of the client clock — two submissions
identical in every field the backend could see, taken one millisecond apart,
already carry different identifiers inside the creation payload itself. -/
theorem createLocation_local_id_counterexample :
    (locationSubmitPayload 1760140800000 "addr" 0 0 "gh" "t").locationId = "loc0000" ∧
      (locationSubmitPayload 1760140800001 "addr" 0 0 "gh" "t").locationId = "loc0001" ∧
      ("loc0000" : String) ≠ "loc0001" :=
  ⟨by decide, by decide, by decide⟩

/-- C4 amended: Firestore document ids of created entities are backend
assigned (`addDoc`/auth), but two identifiers are computed locally: the
`locationId` field CreateLocation submits is a function of the client clock
alone — independent of every other input — and the row ids of `getData`'s
display list are built locally by concatenating the company and location ids. -/
theorem created_ids_amended (formNow : Nat) (a a2 : String)
    (lat lng lat2 lng2 : ℚ) (gh gh2 t t2 : String)
    (companyFetch : String → Option CompanyProfileDoc) (pairs : List MatchedPair)
    (r : DisplayLocation) (hr : r ∈ displayLocs companyFetch pairs) :
    (locationSubmitPayload formNow a lat lng gh t).locationId =
        (locationSubmitPayload formNow a2 lat2 lng2 gh2 t2).locationId ∧
      r.id = r.companyId ++ "-" ++ r.locationId := by
  refine ⟨rfl, ?_⟩
  obtain ⟨p, -, rfl⟩ := List.mem_map.1 hr
  rfl

/-- The display row `getData` produces from `demoDoc` and `demoCompanyFetch`. -/
def demoRow : DisplayLocation :=
  { id := "c1-l1", locationId := "l1", name := "Acme", address := "HQ"
    companyId := "c1", companyName := "Acme", lat := 0, lng := 0 }

/-- Concrete instance of the C4 amended theorem on a one-location pipeline. -/
theorem created_ids_amended_witness :
    demoRow ∈ displayLocs demoCompanyFetch [⟨"c1", demoDoc⟩] ∧
      (locationSubmitPayload 7 "x" 0 0 "g" "t").locationId =
        (locationSubmitPayload 7 "y" 1 1 "h" "u").locationId ∧
      demoRow.id = demoRow.companyId ++ "-" ++ demoRow.locationId := by
  have hmem : demoRow ∈ displayLocs demoCompanyFetch [⟨"c1", demoDoc⟩] := by
    simp [displayLocs, geoResults, companyDataKeys, uniqueCompanyIds, uniqueKeep,
      demoCompanyFetch, demoDoc, jsOr, demoRow]
  exact ⟨hmem,
    (created_ids_amended 7 "x" "y" 0 0 1 1 "g" "h" "t" "u" demoCompanyFetch
      [⟨"c1", demoDoc⟩] demoRow hmem).1,
    (created_ids_amended 7 "x" "y" 0 0 1 1 "g" "h" "t" "u" demoCompanyFetch
      [⟨"c1", demoDoc⟩] demoRow hmem).2⟩

/-- C5 counterexample: the rows UserList displays are a locally computed slice
of the fetched rows — with three fetched users, page 0 at two rows per page
shows two of them — and CompanyList's search filter locally drops fetched rows
rather than passing the vendor result through. -/
theorem local_pagination_counterexample :
    paginatedUsers [⟨"u1", "t", "a@x"⟩, ⟨"u2", "t", "b@x"⟩, ⟨"u3", "t", "c@x"⟩] 0 2 ≠
        [⟨"u1", "t", "a@x"⟩, ⟨"u2", "t", "b@x"⟩, ⟨"u3", "t", "c@x"⟩] ∧
      filteredCompanies
          [⟨"c1", some "Acme Corp", none, none, none⟩,
            ⟨"c2", some "Zed", none, none, none⟩] "ac" ≠
        [⟨"c1", some "Acme Corp", none, none, none⟩,
          ⟨"c2", some "Zed", none, none, none⟩] :=
  ⟨by decide, by decide⟩

/-- C5 amended: the fetch itself is a vendor query, but pagination and search
filtering are implemented locally: UserList displays a contiguous slice of at
most `rowsPerPage` fetched rows, and CompanyList displays exactly the fetched
companies matching the local search predicate. -/
theorem local_pagination_amended (users : List SupaUser) (page rowsPerPage : Nat)
    (companies : List Company) (q : String) :
    paginatedUsers users page rowsPerPage <:+: users ∧
      (paginatedUsers users page rowsPerPage).length ≤ rowsPerPage ∧
      ∀ c, c ∈ filteredCompanies companies q ↔ c ∈ companies ∧ companyMatches q c := by
  refine ⟨⟨users.take (page * rowsPerPage),
      (users.drop (page * rowsPerPage)).drop rowsPerPage, ?_⟩,
    List.length_take_le _ _, ?_⟩
  · rw [List.append_assoc]
    unfold paginatedUsers
    rw [List.take_append_drop, List.take_append_drop]
  · intro c
    simp [filteredCompanies, List.mem_filter]

/-- C6: a failed backend call is absorbed inside the component handler: the
error is surfaced (stored in the error state shown by the alert banner, or
emitted as an alert/console message), and the previously loaded list state is
left unchanged — for UserList's fetch and for the location, company, user and
job delete handlers.  Each handler consumes a single backend outcome, so no
retry is expressible. -/
theorem error_handling_state_frame (s : UserListState) (e : String)
    (locations : List LocationRow) (target : LocationRow)
    (companies : List Company) (cid : String)
    (users : List AdminUser) (uid : String)
    (jobs : List EnrichedJob) (jid : String) :
    (fetchUsersStep s (.error e)).users = s.users ∧
      (fetchUsersStep s (.error e)).error = some e ∧
      (deleteLocationStep locations target (.error e)).1 = locations ∧
      (deleteLocationStep locations target (.error e)).2.isSome = true ∧
      (handleDeleteCompanyStep companies cid (.error e)).1 = companies ∧
      (handleDeleteCompanyStep companies cid (.error e)).2.isSome = true ∧
      (handleDeleteConfirmStep users uid (.error e)).1 = users ∧
      (handleDeleteConfirmStep users uid (.error e)).2.isSome = true ∧
      (deleteJobStep jobs jid (.error e)).1 = jobs ∧
      (deleteJobStep jobs jid (.error e)).2.isSome = true :=
  ⟨rfl, rfl, rfl, rfl, rfl, rfl, rfl, rfl, rfl, rfl⟩

/-- Removing by key from a list with `filter`: the result is a sublist (every
surviving entry unchanged, order preserved), membership drops exactly the
entries carrying the key, and multiplicities of all other entries are kept. -/
theorem filter_ne_key_spec {α : Type} [DecidableEq α] (key : α → String)
    (x : String) (l : List α) (a : α) :
    (l.filter (fun b => key b ≠ x)).Sublist l ∧
      (a ∈ l.filter (fun b => key b ≠ x) ↔ a ∈ l ∧ key a ≠ x) ∧
      (l.filter (fun b => key b ≠ x)).count a =
        if key a = x then 0 else l.count a := by
  refine ⟨List.filter_sublist l, by simp [List.mem_filter], ?_⟩
  by_cases hk : key a = x
  · rw [if_pos hk, List.count_eq_zero]
    intro hmem
    exact (of_decide_eq_true (List.mem_filter.1 hmem).2) hk
  · rw [if_neg hk]
    exact List.count_filter (decide_eq_true hk)

/-- C10: after a successful backend delete of id `X`, each delete handler's
new list state is the previous list with exactly the entries whose id is `X`
removed: the result is a sublist of the old state, an entry survives iff its
id differs from `X`, and every entry with a different id keeps its
multiplicity — for the company, location, user and job handlers. -/
theorem delete_success_removes_exactly (companies : List Company) (cid : String)
    (c : Company) (locations : List LocationRow) (target : LocationRow)
    (l : LocationRow) (users : List AdminUser) (uid : String) (u : AdminUser)
    (jobs : List EnrichedJob) (jid : String) (j : EnrichedJob) :
    ((handleDeleteCompanyStep companies cid (.ok ())).1.Sublist companies ∧
        (c ∈ (handleDeleteCompanyStep companies cid (.ok ())).1 ↔
          c ∈ companies ∧ c.id ≠ cid) ∧
        (handleDeleteCompanyStep companies cid (.ok ())).1.count c =
          if c.id = cid then 0 else companies.count c) ∧
      ((deleteLocationStep locations target (.ok ())).1.Sublist locations ∧
        (l ∈ (deleteLocationStep locations target (.ok ())).1 ↔
          l ∈ locations ∧ l.id ≠ target.id) ∧
        (deleteLocationStep locations target (.ok ())).1.count l =
          if l.id = target.id then 0 else locations.count l) ∧
      ((handleDeleteConfirmStep users uid (.ok ())).1.Sublist users ∧
        (u ∈ (handleDeleteConfirmStep users uid (.ok ())).1 ↔
          u ∈ users ∧ u.id ≠ uid) ∧
        (handleDeleteConfirmStep users uid (.ok ())).1.count u =
          if u.id = uid then 0 else users.count u) ∧
      ((deleteJobStep jobs jid (.ok ())).1.Sublist jobs ∧
        (j ∈ (deleteJobStep jobs jid (.ok ())).1 ↔
          j ∈ jobs ∧ j.job.id ≠ jid) ∧
        (deleteJobStep jobs jid (.ok ())).1.count j =
          if j.job.id = jid then 0 else jobs.count j) :=
  ⟨filter_ne_key_spec (fun b : Company => b.id) cid companies c,
    filter_ne_key_spec (fun b : LocationRow => b.id) target.id locations l,
    filter_ne_key_spec (fun b : AdminUser => b.id) uid users u,
    filter_ne_key_spec (fun b : EnrichedJob => b.job.id) jid jobs j⟩

/-- Unfolding step for the `companyData` dictionary loop. -/
theorem companyDataList_cons (companyFetch : String → Option JobCompanyDoc)
    (a : String) (rest : List String) :
    companyDataList companyFetch (a :: rest) =
      if _ha : a = "" then companyDataList companyFetch rest
      else
        match companyFetch a with
        | none => companyDataList companyFetch rest
        | some cdoc =>
          (a, jsOr cdoc.companyName "Unnamed Company") :: companyDataList companyFetch rest := by
  rw [companyDataList, List.filterMap_cons]
  by_cases ha : a = ""
  · simp only [ha, if_pos rfl, dif_pos rfl]
    rfl
  · rw [dif_neg ha]
    cases hfa : companyFetch a <;> simp [ha, hfa, companyDataList]

/-- Looking an id up in the built `companyData` dictionary equals fetching it
directly, provided the id was among the collected ids and truthy. -/
theorem lookup_companyDataList (companyFetch : String → Option JobCompanyDoc)
    (ids : List String) (cid : String) :
    List.lookup cid (companyDataList companyFetch ids) =
      if cid ∈ ids ∧ cid ≠ "" then
        (companyFetch cid).map (fun cdoc => jsOr cdoc.companyName "Unnamed Company")
      else none := by
  induction ids with
  | nil => simp [companyDataList]
  | cons a rest ih =>
    rw [companyDataList_cons]
    by_cases ha : a = ""
    · rw [dif_pos ha, ih]
      subst ha
      by_cases hcid : cid = ""
      · subst hcid; simp
      · simp [hcid]
    · rw [dif_neg ha]
      cases hfa : companyFetch a with
      | none =>
        rw [ih]
        by_cases hca : cid = a
        · subst hca
          simp [ha, hfa]
        · simp [hca]
      | some cdoc =>
        rw [List.lookup_cons]
        by_cases hca : cid = a
        · subst hca
          rw [beq_self_eq_true]
          simp [ha, hfa]
        · rw [beq_eq_false_iff_ne.2 hca]
          rw [ih]
          simp [hca]

/-- The break-on-first-hit company probe equals taking the first company whose
subcollection holds the document. -/
theorem probeCompanies_eq_find (locationFetch : String → String → Option JobLocationDoc)
    (lid : String) (ids : List String) :
    probeCompanies locationFetch lid ids =
      match ids.find? (fun c => (locationFetch c lid).isSome) with
      | none => none
      | some c =>
        (locationFetch c lid).map (fun ldoc => jsOr ldoc.address "Unknown Location") := by
  induction ids with
  | nil => rfl
  | cons a rest ih =>
    cases hfa : locationFetch a lid with
    | some ldoc =>
      rw [probeCompanies, hfa, List.find?_cons_of_pos _ (by simp [hfa])]
      simp [hfa]
    | none =>
      rw [probeCompanies, hfa, List.find?_cons_of_neg _ (by simp [hfa])]
      exact ih

/-- Unfolding step for the `locationData` dictionary loop. -/
theorem locationDataList_cons (locationFetch : String → String → Option JobLocationDoc)
    (companyIds : List String) (a : String) (rest : List String) :
    locationDataList locationFetch companyIds (a :: rest) =
      if _ha : a = "" then locationDataList locationFetch companyIds rest
      else
        match probeCompanies locationFetch a companyIds with
        | none => locationDataList locationFetch companyIds rest
        | some addr => (a, addr) :: locationDataList locationFetch companyIds rest := by
  rw [locationDataList, List.filterMap_cons]
  by_cases ha : a = ""
  · simp only [ha, if_pos rfl, dif_pos rfl]
    rfl
  · rw [dif_neg ha]
    cases hfa : probeCompanies locationFetch a companyIds <;>
      simp [ha, hfa, locationDataList]

/-- Looking an id up in the built `locationData` dictionary equals running the
company probe, provided the id was among the collected ids and truthy. -/
theorem lookup_locationDataList (locationFetch : String → String → Option JobLocationDoc)
    (companyIds locationIds : List String) (lid : String) :
    List.lookup lid (locationDataList locationFetch companyIds locationIds) =
      if lid ∈ locationIds ∧ lid ≠ "" then probeCompanies locationFetch lid companyIds
      else none := by
  induction locationIds with
  | nil => simp [locationDataList]
  | cons a rest ih =>
    rw [locationDataList_cons]
    by_cases ha : a = ""
    · rw [dif_pos ha, ih]
      subst ha
      by_cases hlid : lid = ""
      · subst hlid; simp
      · simp [hlid]
    · rw [dif_neg ha]
      cases hfa : probeCompanies locationFetch a companyIds with
      | none =>
        rw [ih]
        by_cases hla : lid = a
        · subst hla
          simp [ha, hfa]
        · simp [hla]
      | some addr =>
        rw [List.lookup_cons]
        by_cases hla : lid = a
        · subst hla
          rw [beq_self_eq_true]
          simp [ha, hfa]
        · rw [beq_eq_false_iff_ne.2 hla]
          rw [ih]
          simp [hla]

/-- A job's truthy `companyProfileId` is among the collected unique company ids. -/
theorem companyId_mem_companyIdsOf {jobs : List JobDoc} {j : JobDoc}
    (hj : j ∈ jobs) (ht : jsTruthy j.companyProfileId = true) :
    j.companyProfileId.getD "" ∈ companyIdsOf jobs := by
  rw [companyIdsOf, mem_uniqueKeep]
  exact List.mem_map.2 ⟨j, List.mem_filter.2 ⟨hj, ht⟩, rfl⟩

/-- A job's truthy `locationId` is among the collected unique location ids. -/
theorem locationId_mem_locationIdsOf {jobs : List JobDoc} {j : JobDoc}
    (hj : j ∈ jobs) (ht : jsTruthy j.locationId = true) :
    j.locationId.getD "" ∈ locationIdsOf jobs := by
  rw [locationIdsOf, mem_uniqueKeep]
  exact List.mem_map.2 ⟨j, List.mem_filter.2 ⟨hj, ht⟩, rfl⟩

/-- C7: for every fetched job, the enriched row `fetchJobs` produces carries
the job unchanged; its displayed company name is the `companyName` of the
company document whose id equals the job's `companyProfileId` when that fetch
found a document (with the `'Unnamed Company'` fallback) and nothing
otherwise; and its location name is the address found by probing the matched
companies' `locations` subcollections in order, taken from the first company
in which a document with the job's `locationId` exists. -/
theorem jobs_join_spec (companyFetch : String → Option JobCompanyDoc)
    (locationFetch : String → String → Option JobLocationDoc)
    (userFetch : String → Option JobUserDoc) (jobs : List JobDoc)
    (j : JobDoc) (hj : j ∈ jobs) :
    (enrichJob (companyDataList companyFetch (companyIdsOf jobs))
        (locationDataList locationFetch (companyIdsOf jobs) (locationIdsOf jobs))
        (userDataList userFetch (userIdsOf jobs)) j ∈
      fetchJobsEnrich companyFetch locationFetch userFetch jobs) ∧
      (enrichJob (companyDataList companyFetch (companyIdsOf jobs))
          (locationDataList locationFetch (companyIdsOf jobs) (locationIdsOf jobs))
          (userDataList userFetch (userIdsOf jobs)) j).job = j ∧
      (enrichJob (companyDataList companyFetch (companyIdsOf jobs))
          (locationDataList locationFetch (companyIdsOf jobs) (locationIdsOf jobs))
          (userDataList userFetch (userIdsOf jobs)) j).companyName =
        claimedCompanyName companyFetch j ∧
      (enrichJob (companyDataList companyFetch (companyIdsOf jobs))
          (locationDataList locationFetch (companyIdsOf jobs) (locationIdsOf jobs))
          (userDataList userFetch (userIdsOf jobs)) j).locationName =
        claimedLocationName locationFetch (companyIdsOf jobs) j := by
  refine ⟨List.mem_map.2 ⟨j, hj, rfl⟩, rfl, ?_, ?_⟩
  · cases hcp : j.companyProfileId with
    | none => simp [enrichJob, claimedCompanyName, hcp, jsTruthy]
    | some cid =>
      by_cases hcid : cid = ""
      · subst hcid
        simp [enrichJob, claimedCompanyName, hcp, jsTruthy]
      · have ht : jsTruthy (some cid) = true := by simp [jsTruthy, hcid]
        have hmem : cid ∈ companyIdsOf jobs := by
          have := companyId_mem_companyIdsOf hj (by rw [hcp]; exact ht)
          rwa [hcp] at this
        simp only [enrichJob, hcp]
        rw [if_pos ht]
        simp only [Option.getD_some]
        rw [lookup_companyDataList,
          if_pos (show cid ∈ companyIdsOf jobs ∧ cid ≠ "" from And.intro hmem hcid)]
        simp [claimedCompanyName, hcp, hcid]
  · cases hcp : j.locationId with
    | none => simp [enrichJob, claimedLocationName, hcp, jsTruthy]
    | some lid =>
      by_cases hlid : lid = ""
      · subst hlid
        simp [enrichJob, claimedLocationName, hcp, jsTruthy]
      · have ht : jsTruthy (some lid) = true := by simp [jsTruthy, hlid]
        have hmem : lid ∈ locationIdsOf jobs := by
          have := locationId_mem_locationIdsOf hj (by rw [hcp]; exact ht)
          rwa [hcp] at this
        simp only [enrichJob, hcp]
        rw [if_pos ht]
        simp only [Option.getD_some]
        rw [lookup_locationDataList,
          if_pos (show lid ∈ locationIdsOf jobs ∧ lid ≠ "" from And.intro hmem hlid)]
        rw [probeCompanies_eq_find]
        simp [claimedLocationName, hcp, hlid]

/-- A sample job document. -/
def demoJob : JobDoc :=
  { id := "j1", companyProfileId := some "c1", locationId := some "l1", userId := none }

/-- A sample company fetcher for the jobs join. -/
def demoJobCompanyFetch : String → Option JobCompanyDoc :=
  fun cid => if cid = "c1" then some { companyName := some "Acme" } else none

/-- A sample location fetcher for the jobs join. -/
def demoJobLocationFetch : String → String → Option JobLocationDoc :=
  fun cid lid => if cid = "c1" ∧ lid = "l1" then some { address := some "HQ" } else none

/-- Concrete instance of the C7 theorem on a one-job database. -/
theorem jobs_join_spec_witness :
    demoJob ∈ [demoJob] ∧
      (enrichJob (companyDataList demoJobCompanyFetch (companyIdsOf [demoJob]))
          (locationDataList demoJobLocationFetch (companyIdsOf [demoJob])
            (locationIdsOf [demoJob]))
          (userDataList (fun _ => none) (userIdsOf [demoJob])) demoJob).companyName =
        claimedCompanyName demoJobCompanyFetch demoJob ∧
      (enrichJob (companyDataList demoJobCompanyFetch (companyIdsOf [demoJob]))
          (locationDataList demoJobLocationFetch (companyIdsOf [demoJob])
            (locationIdsOf [demoJob]))
          (userDataList (fun _ => none) (userIdsOf [demoJob])) demoJob).locationName =
        claimedLocationName demoJobLocationFetch (companyIdsOf [demoJob]) demoJob :=
  ⟨List.mem_singleton.2 rfl,
    (jobs_join_spec demoJobCompanyFetch demoJobLocationFetch (fun _ => none)
      [demoJob] demoJob (List.mem_singleton.2 rfl)).2.2.1,
    (jobs_join_spec demoJobCompanyFetch demoJobLocationFetch (fun _ => none)
      [demoJob] demoJob (List.mem_singleton.2 rfl)).2.2.2⟩

/-- Moving one element of a list to the end is a permutation. -/
theorem perm_moveToEnd {α : Type} : ∀ (l : List α) (n : Nat) (h : n < l.length),
    (l.eraseIdx n ++ [l.get ⟨n, h⟩]).Perm l
  | a :: t, 0, _ => by simp [List.perm_append_singleton a t]
  | a :: t, n + 1, h => by
    rw [List.eraseIdx_cons_succ, List.cons_append]
    exact (perm_moveToEnd t n (Nat.lt_of_succ_lt_succ h)).cons a

/-- C8: each search keystroke builds and fires its own un-debounced request,
and un-cancelled overlapping responses each overwrite the users state on
arrival, so the final displayed list has no defined winner: for every
collection of in-flight responses and every member of it, some arrival order
makes that member the final state. -/
theorem overlapping_fetches_race (searches : List String)
    (initial : List SupaUser) (responses : List (List SupaUser))
    (i : Fin responses.length) :
    (searches.map buildUsersQuery).length = searches.length ∧
      ∃ arrivals : List (List SupaUser), arrivals.Perm responses ∧
        finalUsers initial arrivals = responses.get i := by
  refine ⟨List.length_map _ _, ?_⟩
  refine ⟨responses.eraseIdx i.1 ++ [responses.get i], ?_, ?_⟩
  · exact perm_moveToEnd responses i.1 i.2
  · unfold finalUsers
    rw [List.foldl_append]
    rfl

/-- Each character the referral loop appends is one character of the alphabet. -/
theorem charAt_referral_spec (i : ℤ) (h0 : 0 ≤ i) (h36 : i < 36) :
    (charAt referralChars i).length = 1 ∧
      ∀ c ∈ (charAt referralChars i).data, c ∈ referralChars.data := by
  rw [charAt, if_neg (not_lt.2 h0)]
  have hlen : i.toNat < referralChars.data.length := by
    have h : referralChars.data.length = 36 := rfl
    omega
  cases hc : referralChars.data[i.toNat]? with
  | none =>
    have := List.getElem?_eq_none_iff.1 hc
    omega
  | some c =>
    refine ⟨rfl, ?_⟩
    intro c2 hc2
    have hc2c : c2 = c := by
      simpa [String.singleton] using hc2
    subst hc2c
    exact List.getElem?_mem hc

/-- Length and alphabet of the first `n` appended referral characters. -/
theorem referralBody_spec (random : Nat → ℚ) (h : ∀ i, 0 ≤ random i ∧ random i < 1) :
    ∀ n, (referralBody random n).length = n ∧
      ∀ c ∈ (referralBody random n).data, c ∈ referralChars.data
  | 0 => ⟨rfl, by intro c hc; simp [referralBody] at hc⟩
  | n + 1 => by
    obtain ⟨ih1, ih2⟩ := referralBody_spec random h n
    have hq : (referralChars.length : ℚ) = 36 := by
      rw [show referralChars.length = 36 from rfl]
      norm_num
    have hfl0 : (0 : ℤ) ≤ ⌊random n * (referralChars.length : ℚ)⌋ := by
      refine Int.floor_nonneg.2 ?_
      have := (h n).1
      rw [hq]
      positivity
    have hfl36 : ⌊random n * (referralChars.length : ℚ)⌋ < 36 := by
      rw [Int.floor_lt, hq]
      calc random n * 36 < 1 * 36 := by
            exact mul_lt_mul_of_pos_right (h n).2 (by norm_num)
        _ = ((36 : ℤ) : ℚ) := by norm_num
    obtain ⟨hc1, hc2⟩ := charAt_referral_spec _ hfl0 hfl36
    rw [referralBody]
    refine ⟨by rw [String.length_append, ih1, hc1], ?_⟩
    intro c hc
    rw [String.data_append] at hc
    rcases List.mem_append.1 hc with hmem | hmem
    · exact ih2 c hmem
    · exact hc2 c hmem

/-- C9: with every `Math.random()` draw in `[0, 1)`, `generateReferralCode`
returns a string of exactly 8 characters, each drawn from the 36-character
alphabet A-Z, 0-9; and despite the `unique referral code` comment, distinct
invocations are independent draws: two different random streams can yield the
same code, so uniqueness across calls is not guaranteed. -/
theorem generateReferralCode_spec (random : Nat → ℚ)
    (h : ∀ i, 0 ≤ random i ∧ random i < 1) :
    (generateReferralCode random).length = 8 ∧
      (∀ c ∈ (generateReferralCode random).data, c ∈ referralChars.data) ∧
      ∃ r1 r2 : Nat → ℚ, r1 ≠ r2 ∧
        generateReferralCode r1 = generateReferralCode r2 := by
  obtain ⟨h1, h2⟩ := referralBody_spec random h 8
  refine ⟨h1, h2, fun _ => 0, fun _ => 1 / 100, ?_, ?_⟩
  · intro hcontra
    have := congrFun hcontra 0
    norm_num at this
  · have h36 : (referralChars.length : ℚ) = 36 := by
      rw [show referralChars.length = 36 from rfl]
      norm_num
    norm_num [generateReferralCode, referralBody, charAt, h36]

/-- Concrete instance of the C9 theorem with the constant draw one half. -/
theorem generateReferralCode_spec_witness :
    (∀ i : Nat, (0 : ℚ) ≤ (fun _ : Nat => (1 : ℚ) / 2) i ∧
        (fun _ : Nat => (1 : ℚ) / 2) i < 1) ∧
      (generateReferralCode (fun _ : Nat => (1 : ℚ) / 2)).length = 8 :=
  ⟨fun _ => by norm_num,
    (generateReferralCode_spec (fun _ : Nat => (1 : ℚ) / 2)
      (fun _ => by norm_num)).1⟩

end BatteryAdmin
